import Mathlib

/-!
Shallow embedding of `src/components/crawler/crawler.worker.js` (the
`CrawlerWorker` class and its module-level helpers `addSetItem`, `launchCrawler`,
`run`, and the `SIGUSR2` handler).

The Redis client state is modelled as explicit association lists; the external
collaborators (Playwright/crawlee rendering, `githubService.saveAdToPages`,
`parserService.parseMetadata`, the system clock) are parameters of the embedded
functions, which is faithful because the worker only threads their results
through.  Machine details of the JavaScript semantics that matter to the claims
(truthiness of strings, `NaN` comparison on the `MULTI` pipeline object, `Set`
insertion-order deduplication, extra arguments to client-library commands being
ignored) are modelled explicitly and documented at the definition concerned.
-/

set_option autoImplicit false

namespace CrawlerWorker

/-- Association-list lookup; models field lookup in a Redis hash / key lookup in
the keyspace (first binding wins, which agrees with the upsert discipline of
`aset` below that keeps keys unique). -/
def alook {α : Type} : List (String × α) → String → Option α
  | [], _ => none
  | (k, v) :: t, q => if k = q then some v else alook t q

/-- Association-list upsert; models Redis `HSET`/`SET` (overwrite the existing
binding in place, otherwise append). -/
def aset {α : Type} : List (String × α) → String → α → List (String × α)
  | [], q, v => [(q, v)]
  | (k, w) :: t, q, v => if k = q then (q, v) :: t else (k, w) :: aset t q v

/-- Association-list delete; models Redis `HDEL`/`DEL` (remove every binding of
the key). -/
def adel {α : Type} : List (String × α) → String → List (String × α)
  | [], _ => []
  | (k, v) :: t, q => if k = q then adel t q else (k, v) :: adel t q

/-- JavaScript truthiness of the result of `redis.GET`: `null` and the empty
string are falsy, every other string is truthy (`if (!isRunning)` in the
source). -/
def jsTruthyStr : Option String → Bool
  | none => false
  | some s => !s.isEmpty

/-- Accumulator pass of `Array.from(new Set([...]))`: a JavaScript `Set` keeps
the first occurrence of each element, in insertion order. -/
def jsDedupAux : List String → List String → List String
  | acc, [] => acc
  | acc, s :: t => if s ∈ acc then jsDedupAux acc t else jsDedupAux (acc ++ [s]) t

/-- `Array.from(new Set(l))`: insertion-order deduplication. -/
def jsDedup (l : List String) : List String :=
  jsDedupAux [] l

/-- A JavaScript value as far as the numeric coercions in `addSetItem` are
concerned: a number, `NaN`, or a non-numeric object (the node-redis `MULTI`
pipeline chain, whose `ToPrimitive` coercion yields `NaN`). -/
inductive JsVal where
  | num (n : Int)
  | nan
  | obj
deriving DecidableEq

/-- `ToNumber` coercion: objects without numeric primitive coerce to `NaN`. -/
def JsVal.toNumber : JsVal → JsVal
  | .num n => .num n
  | .nan => .nan
  | .obj => .nan

/-- JavaScript `<` after numeric coercion: any comparison involving `NaN` is
false. -/
def jsLt (a b : JsVal) : Bool :=
  match a.toNumber, b.toNumber with
  | .num m, .num n => decide (m < n)
  | _, _ => false

/-- JavaScript subtraction after numeric coercion (`NaN` absorbs). -/
def jsSub (a b : JsVal) : JsVal :=
  match a.toNumber, b.toNumber with
  | .num m, .num n => .num (m - n)
  | _, _ => .nan

/-- JavaScript addition after numeric coercion (`NaN` absorbs). -/
def jsAdd (a b : JsVal) : JsVal :=
  match a.toNumber, b.toNumber with
  | .num m, .num n => .num (m + n)
  | _, _ => .nan

/-- Number of iterations of `for (let i = 0; i < bound; i++)` for a JavaScript
bound: a `NaN` bound (and any non-positive bound) runs the loop zero times. -/
def loopIterations (bound : JsVal) : Nat :=
  match bound.toNumber with
  | .num n => n.toNat
  | _ => 0

/-- Redis `SADD` on a set modelled as a duplicate-free list: adds the member
only if it is not already present. -/
def sadd (s : List String) (item : String) : List String :=
  if item ∈ s then s else s ++ [item]

/-- Redis `SPOP` (remove one arbitrary member); modelled as removing the head. -/
def spop : List String → List String
  | [] => []
  | _ :: t => t

/-- Embeds `addSetItem(multi, setKey, item, maxSize)` (source lines 67-82).
In the source, `multi.SCARD(setKey)` queues the command on the `MULTI` pipeline
and returns the pipeline object itself (results only materialise at `exec`), so
`currentSize` is a non-numeric object: `currentSize < maxSize` coerces it to
`NaN` and is false, `membersToRemove = currentSize - maxSize + 1` is `NaN`, and
the `SPOP` loop runs zero times.  The net effect of every call is a single
`SADD`. -/
def addSetItem (s : List String) (item : String) (maxSize : Nat) : List String :=
  let currentSize := JsVal.obj
  if jsLt currentSize (.num maxSize) then
    sadd s item
  else
    let membersToRemove := jsAdd (jsSub currentSize (.num maxSize)) (.num 1)
    let pruned := (List.range (loopIterations membersToRemove)).foldl (fun t _ => spop t) s
    sadd pruned item

/-- The `options` object passed to `CrawlerWorker.archive` (the fields the
worker reads). -/
structure Options where
  listingURL : String
  listingUUID : String
  clientId : String
deriving DecidableEq

/-- The payload of a `crawled` event:
`{ url, html, imageUrls, ...options }` as assembled in the `requestHandler`
(source line 147), with the request options contributing `listingURL`,
`listingUUID`, `listingPid` and `clientId`. -/
structure CapturedPayload where
  url : String
  html : String
  imageUrls : List String
  listingURL : String
  listingUUID : String
  listingPid : String
  clientId : String
deriving DecidableEq

/-- A value stored in the `archives` hash.  The source stores
`JSON.stringify(payload)` (source line 24); that JSON has no `gitUrl` key, which
is modelled as `gitUrl = none`.  A record carrying the durable locator would
have `gitUrl = some g`. -/
structure StoredRecord where
  payload : CapturedPayload
  gitUrl : Option String
deriving DecidableEq

/-- The record carried by the `archived` event
(`{ archived: { ...payload, gitUrl } }`, source line 27). -/
structure ArchivedEvent where
  payload : CapturedPayload
  gitUrl : String
deriving DecidableEq

/-- One request object submitted to the crawler:
`{ url, userData: { options } }` (source lines 162 and 164). -/
structure Request where
  url : String
  options : Options
deriving DecidableEq

/-- The Redis keyspace as used by this worker: plain string keys with optional
TTL (the `running-<uuid>` locks), the `queued` hash, the `userConfig` hash
(modelled as the parsed `crawlerLimit` field per client), the `crawlers` sorted
set, the `archives` hash, and the `recent_listings` set. -/
structure Redis where
  kv : List (String × (String × Option Nat))
  queued : List (String × String)
  userConfig : List (String × Nat)
  crawlers : List (String × Nat)
  archives : List (String × StoredRecord)
  recent : List String
deriving DecidableEq

/-- In-process state of one `CrawlerWorker` instance: `this.crawlers` maps a
clientId to its live crawler (modelled by a session identifier), and
`nextSession` numbers the crawlers created by `launchCrawler` so that creation
versus reuse is observable. -/
structure Worker where
  redis : Redis
  sessions : List (String × Nat)
  nextSession : Nat
deriving DecidableEq

/-- What `run(crawlers[clientId], urls, options)` is invoked with at the end of
the un-locked branch of `archive`. -/
structure Dispatch where
  sessionId : Nat
  urlMap : List String
  options : Options
deriving DecidableEq

/-- The lock key `running-<listingUUID>`. -/
def lockKey (o : Options) : String :=
  "running-" ++ o.listingUUID

/-- The queue entry string `<listingUUID> <listingURL>`. -/
def queueEntry (o : Options) : String :=
  o.listingUUID ++ " " ++ o.listingURL

/-- `redis.GET key` (value only, TTL ignored by reads). -/
def redisGet (r : Redis) (k : String) : Option String :=
  (alook r.kv k).map (fun p => p.1)

/-- `userConfig?.crawlerLimit || 1`: a missing config, a config without the
field, and a configured limit of `0` all fall back to `1`. -/
def effLimit : Option Nat → Nat
  | none => 1
  | some 0 => 1
  | some (n + 1) => n + 1

/-- `!numberOfCrawlers || numberOfCrawlers < limit` where `numberOfCrawlers` is
the `ZSCORE` result (`null` when the member is absent; `null` and `0` are
falsy). -/
def shouldLaunch : Option Nat → Nat → Bool
  | none, _ => true
  | some n, limit => n == 0 || decide (n < limit)

/-- `ZINCRBY crawlers 1 clientId` (source line 153). -/
def zincrby (z : List (String × Nat)) (c : String) : List (String × Nat) :=
  aset z c ((alook z c).getD 0 + 1)

/-- The member's score read as a count (absent member counts as zero). -/
def zscoreNat (z : List (String × Nat)) (c : String) : Nat :=
  (alook z c).getD 0

/-- `results[1].map(key => redis.HDEL('queued', key))` (source line 50): delete
every listed field of the `queued` hash. -/
def drainFields (h : List (String × String)) (keys : List String) : List (String × String) :=
  keys.foldl (fun acc k => adel acc k) h

/-- The worker state after the locked branch of `archive` (source lines 58-61):
`HSET queued clientId "<uuid> <url>"`, nothing else touched. -/
def archiveQueuedState (w : Worker) (o : Options) : Worker :=
  { w with redis := { w.redis with queued := aset w.redis.queued o.clientId (queueEntry o) } }

/-- The URL batch assembled on the un-locked branch (source line 48):
`Array.from(new Set([...results[0], uuid + ' ' + url])).filter(url => url)`,
where `results[0]` is `HVALS` of the entire `queued` hash. -/
def archiveBatch (w : Worker) (o : Options) : List String :=
  (jsDedup (w.redis.queued.map (fun p => p.2) ++ [queueEntry o])).filter
    (fun u => !u.isEmpty)

/-- The worker state after the un-locked branch when `launchCrawler` runs
(source lines 42-56 with a launch): the lock is set with a 30-second expiry,
every field of the `queued` hash is deleted, the tenant's `crawlers` score is
incremented by one (`ZINCRBY`, source line 153) and a fresh crawler replaces
the slot in the in-process map. -/
def archiveLaunchState (w : Worker) (o : Options) (now : String) : Worker :=
  { redis := { w.redis with
      kv := aset w.redis.kv (lockKey o) (now, some 30),
      queued := drainFields w.redis.queued (w.redis.queued.map (fun p => p.1)),
      crawlers := zincrby w.redis.crawlers o.clientId },
    sessions := aset w.sessions o.clientId w.nextSession,
    nextSession := w.nextSession + 1 }

/-- The worker state after the un-locked branch when the stored crawler is
reused (no launch): lock set, queue drained, scores and sessions untouched. -/
def archiveReuseState (w : Worker) (o : Options) (now : String) : Worker :=
  { redis := { w.redis with
      kv := aset w.redis.kv (lockKey o) (now, some 30),
      queued := drainFields w.redis.queued (w.redis.queued.map (fun p => p.1)) },
    sessions := w.sessions,
    nextSession := w.nextSession }

/-- Embeds `CrawlerWorker.archive(options)` (source lines 31-62), sequentially
(each `await` resolves in program order).  `now` is the value of
`new Date().toLocaleString()` stored under the lock key; such timestamps are
never the empty string.  Note that `redis.HVALS('queued', clientId)` and
`redis.HKEYS('queued', clientId)` (source lines 45-46) pass `clientId` to
commands that take only the hash key — the client library ignores the extra
argument, so they read the values and fields of the entire `queued` hash, for
all tenants.  The branch states and the batch are split into the named
definitions above; the returned `Option Dispatch` is the `run` invocation fired
on the un-locked path (`none` on the queued path). -/
def archive (w : Worker) (o : Options) (now : String) : Worker × Option Dispatch :=
  bif jsTruthyStr (redisGet w.redis (lockKey o)) then
    (archiveQueuedState w o, none)
  else
    match alook w.sessions o.clientId with
    | none =>
      (archiveLaunchState w o now, some ⟨w.nextSession, archiveBatch w o, o⟩)
    | some sid =>
      bif shouldLaunch (alook w.redis.crawlers o.clientId)
          (effLimit (alook w.redis.userConfig o.clientId)) then
        (archiveLaunchState w o now, some ⟨w.nextSession, archiveBatch w o, o⟩)
      else
        (archiveReuseState w o now, some ⟨sid, archiveBatch w o, o⟩)

/-- Splitting a character list at every occurrence of `sep` (JavaScript
`String.prototype.split` with a one-character separator: `""` splits to `[""]`,
adjacent separators yield empty fields). -/
def splitChars (sep : Char) : List Char → List (List Char)
  | [] => [[]]
  | c :: t =>
    if c = sep then [] :: splitChars sep t
    else
      match splitChars sep t with
      | [] => [[c]]
      | h :: t2 => (c :: h) :: t2

/-- JavaScript `m.split(' ')`. -/
def jsSplitSpace (m : String) : List String :=
  (splitChars ' ' m.toList).map (fun cs => String.mk cs)

/-- `m.split(' ')[0]` of a `"<uuid> <url>"` entry (JavaScript indexing out of
range yields `undefined`; the entries handled here always have two fields). -/
def uuidOf (m : String) : String :=
  (jsSplitSpace m).getD 0 ""

/-- `m.split(' ')[1]` of a `"<uuid> <url>"` entry. -/
def urlOf (m : String) : String :=
  (jsSplitSpace m).getD 1 ""

/-- The `finally` block of `run` (source lines 169-173): `DEL running-<uuid>`
for every uuid of the batch. -/
def releaseLocks (kv : List (String × (String × Option Nat))) (uuids : List String) :
    List (String × (String × Option Nat)) :=
  uuids.foldl (fun acc u => adel acc ("running-" ++ u)) kv

/-- Embeds `run(crawler, urlMap, options)` (source lines 156-174).  The request
objects handed to the crawler are `{ url, userData: { options } }` with the one
`options` value of this call.  `bodyFails` says whether the `try` body throws
(a `BatchFailure`); the `catch` only logs it, and the `finally` block releases
every lock of the batch on both paths, so both branches of the embedded
conditional produce the same store. -/
def run (r : Redis) (urlMap : List String) (options : Options) (bodyFails : Bool) :
    Redis × List Request :=
  let urls := urlMap.map urlOf
  let uuids := urlMap.map uuidOf
  let requests := urls.map (fun url => { url := url, options := options : Request })
  let kvAfter := releaseLocks r.kv uuids
  (bif bodyFails then { r with kv := kvAfter } else { r with kv := kvAfter }, requests)

/-- Embeds the `crawled` handler installed in the constructor (source lines
17-28).  `gitUrl` is the locator returned by the external
`githubService.saveAdToPages`, and `recentListing` the serialised
`{ listingPid, metadata, createdAt }` built by `toRecentListing` with the
external `parserService.parseMetadata`.  The handler stores
`JSON.stringify(payload)` (no `gitUrl` key) in the `archives` hash keyed by
`listingPid`, runs `addSetItem` on `recent_listings` with capacity 10, and then
emits the `archived` event whose record does carry `gitUrl`. -/
def crawledHandler (r : Redis) (payload : CapturedPayload) (gitUrl : String)
    (recentListing : String) : Redis × ArchivedEvent :=
  ({ r with
      archives := aset r.archives payload.listingPid { payload := payload, gitUrl := none },
      recent := addSetItem r.recent recentListing 10 },
   { payload := payload, gitUrl := gitUrl })

/-- Whether `s` starts with `pre`, character by character (the Redis glob
patterns used by this worker are all of the shape `<pre>*`). -/
def listStarts : List Char → List Char → Bool
  | _, [] => true
  | [], _ :: _ => false
  | c :: cs, d :: ds => c = d && listStarts cs ds

/-- `KEYS <pre>*` support: does the key match the glob `<pre>*`? -/
def strStarts (s pre : String) : Bool :=
  listStarts s.toList pre.toList

/-- The keys of the Redis database in the model: the plain string keys plus the
container keys that exist while non-empty (Redis drops a container key when its
last member goes). -/
def dbKeys (r : Redis) : List String :=
  r.kv.map (fun p => p.1)
    ++ (if r.queued.isEmpty then [] else ["queued"])
    ++ (if r.userConfig.isEmpty then [] else ["userConfig"])
    ++ (if r.crawlers.isEmpty then [] else ["crawlers"])
    ++ (if r.archives.isEmpty then [] else ["archives"])
    ++ (if r.recent.isEmpty then [] else ["recent_listings"])

/-- `redis.KEYS('<pre>*')`. -/
def keysMatching (r : Redis) (pre : String) : List String :=
  (dbKeys r).filter (fun k => strStarts k pre)

/-- `redis.DEL key` against the whole keyspace (the extra `0, -1` arguments
passed in the source are ignored by the client library's `DEL`). -/
def delDbKey (r : Redis) (k : String) : Redis :=
  if k = "queued" then { r with queued := [] }
  else if k = "userConfig" then { r with userConfig := [] }
  else if k = "crawlers" then { r with crawlers := [] }
  else if k = "archives" then { r with archives := [] }
  else if k = "recent_listings" then { r with recent := [] }
  else { r with kv := adel r.kv k }

/-- Embeds the `SIGUSR2` handler (source lines 175-183): it scans for keys
matching `queued-*` and `running-*` (both scans against the state at signal
time), then removes every member of the `crawlers` sorted set
(`ZREMRANGEBYRANK crawlers 0 -1`) and deletes the matched keys.  Note the queue
actually lives in the single hash key `queued`, which does not match the
pattern `queued-*`. -/
def sigusr2 (r : Redis) : Redis :=
  let queuedKeys := keysMatching r "queued-"
  let runningKeys := keysMatching r "running-"
  let r1 := { r with crawlers := [] }
  let r2 := queuedKeys.foldl delDbKey r1
  runningKeys.foldl delDbKey r2

/-- The worker as it starts against a fresh store: no locks, no queue, no
scores, no in-process crawlers; the `userConfig` hash is arbitrary (it is only
ever read by this worker). -/
def initWorker (cfg : List (String × Nat)) : Worker :=
  { redis := { kv := [], queued := [], userConfig := cfg, crawlers := [], archives := [],
               recent := [] },
    sessions := [], nextSession := 0 }

/-- The per-tenant admission invariant maintained by `archive` against a fixed
`userConfig` hash `cfg`: the recorded crawler score never exceeds the effective
limit, and a tenant with no in-process crawler has no score yet. -/
def Inv (cfg : List (String × Nat)) (w : Worker) : Prop :=
  w.redis.userConfig = cfg ∧
  ∀ c, zscoreNat w.redis.crawlers c ≤ effLimit (alook cfg c) ∧
    (alook w.sessions c = none → alook w.redis.crawlers c = none)

/-- The worker state after a sequence of `archive` calls (each paired with its
clock reading) against a fresh store with configuration `cfg`. -/
def archiveFold (cfg : List (String × Nat)) (calls : List (Options × String)) : Worker :=
  calls.foldl (fun w p => (archive w p.1 p.2).1) (initWorker cfg)

/-- An empty Redis database (concrete states below are used to instantiate the
claims). -/
def emptyRedis : Redis :=
  { kv := [], queued := [], userConfig := [], crawlers := [], archives := [], recent := [] }

/-- A worker against an empty store. -/
def w0 : Worker :=
  { redis := emptyRedis, sessions := [], nextSession := 0 }

/-- A request for target `u1` of tenant `t1`. -/
def oA : Options :=
  { listingURL := "urlA", listingUUID := "u1", clientId := "t1" }

/-- A store in which the lock for `u1` is currently held. -/
def wBusy : Worker :=
  { redis := { emptyRedis with kv := [("running-u1", ("x", some 30))] },
    sessions := [], nextSession := 0 }

/-- A store with pending queue entries for two different tenants. -/
def w6 : Worker :=
  { redis := { emptyRedis with queued := [("t1", "u1 a"), ("t2", "u2 b")] },
    sessions := [], nextSession := 0 }

/-- A fresh request of tenant `t1` admitted while `w6`'s entries are pending. -/
def o6 : Options :=
  { listingURL := "c", listingUUID := "u9", clientId := "t1" }

/-- A store holding one lock, one queued entry and one recorded crawler, as in
the specification's administrative-reset scenario. -/
def r8 : Redis :=
  { kv := [("running-abc", ("ts", some 30))], queued := [("t1", "u1 url1")],
    userConfig := [], crawlers := [("t1", 1)], archives := [], recent := [] }

/-- A store in which tenant `t2` has parked an entry whose URL coincides with
the URL about to be admitted by tenant `t1`. -/
def w7 : Worker :=
  { redis := { emptyRedis with queued := [("t2", "u2 urlX")] },
    sessions := [], nextSession := 0 }

/-- Tenant `t1` admits uuid `u1` for the same URL `urlX`. -/
def o7 : Options :=
  { listingURL := "urlX", listingUUID := "u1", clientId := "t1" }

/-- The options of the request triggering a dispatch of a merged batch. -/
def o9 : Options :=
  { listingURL := "b", listingUUID := "u2", clientId := "t1" }

/-- A store holding the locks of a two-target batch. -/
def r5 : Redis :=
  { emptyRedis with kv := [("running-u1", ("x", some 30)), ("running-u2", ("y", some 30))] }

/-- A concrete captured payload. -/
def p4 : CapturedPayload :=
  { url := "urlA", html := "<html>", imageUrls := [], listingURL := "urlA",
    listingUUID := "u1", listingPid := "pid1", clientId := "t1" }

/-- A tenant already at its default limit with a stored session `0`. -/
def wAtLimit : Worker :=
  { redis := { emptyRedis with crawlers := [("t1", 1)] },
    sessions := [("t1", 0)], nextSession := 1 }

@[simp]
theorem alook_aset_self {α : Type} (l : List (String × α)) (k : String) (v : α) :
    alook (aset l k v) k = some v := by
  induction l with
  | nil => simp [aset, alook]
  | cons p t ih =>
    rcases p with ⟨pk, pv⟩
    by_cases h : pk = k
    · subst h
      simp [aset, alook]
    · simp [aset, alook, h, ih]

theorem alook_aset_ne {α : Type} (l : List (String × α)) (k q : String) (v : α)
    (h : q ≠ k) : alook (aset l k v) q = alook l q := by
  have hk : ¬ k = q := fun hh => h hh.symm
  induction l with
  | nil => simp [aset, alook, hk]
  | cons p t ih =>
    rcases p with ⟨pk, pv⟩
    by_cases hp : pk = k
    · subst hp
      simp [aset, alook, hk]
    · by_cases hq : pk = q
      · simp [aset, alook, hp, hq, h]
      · simp [aset, alook, hp, hq, ih]

@[simp]
theorem alook_adel_self {α : Type} (l : List (String × α)) (k : String) :
    alook (adel l k) k = none := by
  induction l with
  | nil => rfl
  | cons p t ih =>
    rcases p with ⟨pk, pv⟩
    by_cases h : pk = k
    · simpa [adel, h] using ih
    · simpa [adel, alook, h] using ih

theorem alook_adel_ne {α : Type} (l : List (String × α)) (k q : String) (h : q ≠ k) :
    alook (adel l k) q = alook l q := by
  induction l with
  | nil => rfl
  | cons p t ih =>
    rcases p with ⟨pk, pv⟩
    by_cases hp : pk = k
    · subst hp
      have : ¬ pk = q := fun hh => h (hh ▸ rfl)
      simp [adel, alook, this, ih]
    · by_cases hq : pk = q
      · simp [adel, alook, hp, hq, h]
      · simp [adel, alook, hp, hq, ih]

theorem alook_adel_of_none {α : Type} (l : List (String × α)) (k q : String)
    (h : alook l q = none) : alook (adel l k) q = none := by
  by_cases hk : q = k
  · simp [hk]
  · rw [alook_adel_ne l k q hk]
    exact h

theorem mem_jsDedupAux (acc l : List String) (a : String) :
    a ∈ jsDedupAux acc l ↔ a ∈ acc ∨ a ∈ l := by
  induction l generalizing acc with
  | nil => simp [jsDedupAux]
  | cons s t ih =>
    by_cases h : s ∈ acc
    · simp only [jsDedupAux, if_pos h, ih, List.mem_cons]
      constructor
      · rintro (ha | ha)
        · exact Or.inl ha
        · exact Or.inr (Or.inr ha)
      · rintro (ha | rfl | ha)
        · exact Or.inl ha
        · exact Or.inl h
        · exact Or.inr ha
    · simp only [jsDedupAux, if_neg h, ih, List.mem_append, List.mem_singleton,
        List.mem_cons]
      tauto

theorem nodup_jsDedupAux (acc l : List String) (h : acc.Nodup) :
    (jsDedupAux acc l).Nodup := by
  induction l generalizing acc with
  | nil => simpa [jsDedupAux] using h
  | cons s t ih =>
    by_cases hs : s ∈ acc
    · simpa [jsDedupAux, hs] using ih acc h
    · have hacc : (acc ++ [s]).Nodup := by
        rw [List.nodup_append]
        refine ⟨h, List.nodup_singleton s, ?_⟩
        intro a ha hb
        rw [List.mem_singleton] at hb
        subst hb
        exact hs ha
      simpa [jsDedupAux, hs] using ih (acc ++ [s]) hacc

theorem mem_jsDedup (l : List String) (a : String) : a ∈ jsDedup l ↔ a ∈ l := by
  simp [jsDedup, mem_jsDedupAux]

theorem nodup_jsDedup (l : List String) : (jsDedup l).Nodup :=
  nodup_jsDedupAux [] l List.nodup_nil

theorem addSetItem_eq_sadd (s : List String) (item : String) (maxSize : Nat) :
    addSetItem s item maxSize = sadd s item := rfl

theorem sadd_length_le (s : List String) (item : String) :
    (sadd s item).length ≤ s.length + 1 := by
  by_cases h : item ∈ s <;> simp [sadd, h]

theorem effLimit_pos (x : Option Nat) : 1 ≤ effLimit x := by
  rcases x with _ | n
  · simp [effLimit]
  · rcases n with _ | m <;> simp [effLimit]

theorem shouldLaunch_true_of_getD (s : Option Nat) (L : Nat) (hL : 1 ≤ L)
    (h : shouldLaunch s L = true) : s.getD 0 + 1 ≤ L := by
  rcases s with _ | n
  · simpa using hL
  · rcases n with _ | m
    · simpa using hL
    · simp only [shouldLaunch, Bool.or_eq_true, beq_iff_eq, decide_eq_true_eq] at h
      rcases h with h | h <;> simp only [Option.getD_some] <;> omega

theorem zscoreNat_zincrby_self (z : List (String × Nat)) (c : String) :
    zscoreNat (zincrby z c) c = zscoreNat z c + 1 := by
  simp [zscoreNat, zincrby]

theorem zscoreNat_zincrby_ne (z : List (String × Nat)) (c q : String) (h : q ≠ c) :
    zscoreNat (zincrby z c) q = zscoreNat z q := by
  simp [zscoreNat, zincrby, alook_aset_ne _ _ _ _ h]

theorem alook_zincrby_ne (z : List (String × Nat)) (c q : String) (h : q ≠ c) :
    alook (zincrby z c) q = alook z q := by
  simp [zincrby, alook_aset_ne _ _ _ _ h]

theorem alook_foldl_adel_none (us : List String)
    (kv : List (String × (String × Option Nat))) (k : String)
    (h : alook kv k = none) :
    alook (us.foldl (fun acc u => adel acc ("running-" ++ u)) kv) k = none := by
  induction us generalizing kv with
  | nil => simpa using h
  | cons v t ih => exact ih _ (alook_adel_of_none _ _ _ h)

theorem alook_releaseLocks_mem (us : List String)
    (kv : List (String × (String × Option Nat))) (u : String) (h : u ∈ us) :
    alook (releaseLocks kv us) ("running-" ++ u) = none := by
  induction us generalizing kv with
  | nil => cases h
  | cons v t ih =>
    rcases List.mem_cons.mp h with rfl | h2
    · simp only [releaseLocks, List.foldl_cons]
      exact alook_foldl_adel_none t _ _ (alook_adel_self _ _)
    · have := ih (adel kv ("running-" ++ v)) h2
      simpa [releaseLocks] using this

theorem shouldLaunch_iff_lt (s : Option Nat) (L : Nat) (hL : 1 ≤ L) :
    shouldLaunch s L = true ↔ s.getD 0 < L := by
  rcases s with _ | n
  · simpa [shouldLaunch] using hL
  · rcases n with _ | m
    · simp only [shouldLaunch, Option.getD_some]
      constructor
      · intro _
        omega
      · intro _
        simp
    · simp [shouldLaunch]

theorem queueEntry_ne_empty (o : Options) : queueEntry o ≠ "" := by
  intro h
  have hd := congrArg String.data h
  simp only [queueEntry, String.data_append] at hd
  have hl := congrArg List.length hd
  simp at hl

theorem crawlers_delDbKey (r : Redis) (k : String) (h : k ≠ "crawlers") :
    (delDbKey r k).crawlers = r.crawlers := by
  simp only [delDbKey]
  split_ifs <;> simp_all

theorem crawlers_foldl_delDbKey (ks : List String) (r : Redis)
    (h : ∀ k ∈ ks, k ≠ "crawlers") :
    (ks.foldl delDbKey r).crawlers = r.crawlers := by
  induction ks generalizing r with
  | nil => rfl
  | cons k t ih =>
    simp only [List.foldl_cons]
    rw [ih _ (fun x hx => h x (List.mem_cons_of_mem _ hx)),
      crawlers_delDbKey r k (h k (List.mem_cons_self _ _))]

theorem sigusr2_crawlers (r : Redis) : (sigusr2 r).crawlers = [] := by
  have hq : ∀ k ∈ keysMatching r "queued-", k ≠ "crawlers" := by
    intro k hk hco
    subst hco
    have := (List.mem_filter.mp hk).2
    exact absurd this (by decide)
  have hr : ∀ k ∈ keysMatching r "running-", k ≠ "crawlers" := by
    intro k hk hco
    subst hco
    have := (List.mem_filter.mp hk).2
    exact absurd this (by decide)
  simp only [sigusr2]
  rw [crawlers_foldl_delDbKey _ _ hr, crawlers_foldl_delDbKey _ _ hq]

theorem archive_eq_busy (w : Worker) (o : Options) (now : String)
    (hx : jsTruthyStr (redisGet w.redis (lockKey o)) = true) :
    archive w o now = (archiveQueuedState w o, none) := by
  simp [archive, hx]

theorem archive_eq_launch_nosession (w : Worker) (o : Options) (now : String)
    (hx : jsTruthyStr (redisGet w.redis (lockKey o)) = false)
    (hs : alook w.sessions o.clientId = none) :
    archive w o now = (archiveLaunchState w o now,
      some ⟨w.nextSession, archiveBatch w o, o⟩) := by
  simp [archive, hx, hs]

theorem archive_eq_launch_below (w : Worker) (o : Options) (now : String) (sid : Nat)
    (hx : jsTruthyStr (redisGet w.redis (lockKey o)) = false)
    (hs : alook w.sessions o.clientId = some sid)
    (hl : shouldLaunch (alook w.redis.crawlers o.clientId)
      (effLimit (alook w.redis.userConfig o.clientId)) = true) :
    archive w o now = (archiveLaunchState w o now,
      some ⟨w.nextSession, archiveBatch w o, o⟩) := by
  simp [archive, hx, hs, hl]

theorem archive_eq_reuse (w : Worker) (o : Options) (now : String) (sid : Nat)
    (hx : jsTruthyStr (redisGet w.redis (lockKey o)) = false)
    (hs : alook w.sessions o.clientId = some sid)
    (hl : shouldLaunch (alook w.redis.crawlers o.clientId)
      (effLimit (alook w.redis.userConfig o.clientId)) = false) :
    archive w o now = (archiveReuseState w o now, some ⟨sid, archiveBatch w o, o⟩) := by
  simp [archive, hx, hs, hl]

theorem inv_launchState (cfg : List (String × Nat)) (w : Worker) (o : Options) (now : String)
    (hcfg : w.redis.userConfig = cfg)
    (hI : ∀ c, zscoreNat w.redis.crawlers c ≤ effLimit (alook cfg c) ∧
      (alook w.sessions c = none → alook w.redis.crawlers c = none))
    (hbound : zscoreNat w.redis.crawlers o.clientId + 1 ≤ effLimit (alook cfg o.clientId)) :
    Inv cfg (archiveLaunchState w o now) := by
  refine ⟨hcfg, fun c => ?_⟩
  by_cases hc : c = o.clientId
  · constructor
    · show zscoreNat (zincrby w.redis.crawlers o.clientId) c ≤ effLimit (alook cfg c)
      rw [hc, zscoreNat_zincrby_self]
      exact hbound
    · intro hcon
      rw [hc, show (archiveLaunchState w o now).sessions = aset w.sessions o.clientId w.nextSession
        from rfl, alook_aset_self] at hcon
      cases hcon
  · constructor
    · show zscoreNat (zincrby w.redis.crawlers o.clientId) c ≤ effLimit (alook cfg c)
      rw [zscoreNat_zincrby_ne _ _ _ hc]
      exact (hI c).1
    · intro hcon
      rw [show (archiveLaunchState w o now).sessions = aset w.sessions o.clientId w.nextSession
          from rfl, alook_aset_ne _ _ _ _ hc] at hcon
      show alook (zincrby w.redis.crawlers o.clientId) c = none
      rw [alook_zincrby_ne _ _ _ hc]
      exact (hI c).2 hcon

theorem inv_initWorker (cfg : List (String × Nat)) : Inv cfg (initWorker cfg) := by
  refine ⟨rfl, fun c => ⟨?_, fun _ => rfl⟩⟩
  exact Nat.zero_le _

theorem inv_archive (cfg : List (String × Nat)) (w : Worker) (o : Options) (now : String)
    (h : Inv cfg w) : Inv cfg (archive w o now).1 := by
  obtain ⟨hcfg, hI⟩ := h
  cases hx : jsTruthyStr (redisGet w.redis (lockKey o)) with
  | true =>
    rw [archive_eq_busy w o now hx]
    exact ⟨hcfg, hI⟩
  | false =>
    rcases hs : alook w.sessions o.clientId with _ | sid
    · rw [archive_eq_launch_nosession w o now hx hs]
      apply inv_launchState cfg w o now hcfg hI
      have hnone := (hI o.clientId).2 hs
      have hz : zscoreNat w.redis.crawlers o.clientId = 0 := by
        simp [zscoreNat, hnone]
      rw [hz]
      simpa using effLimit_pos (alook cfg o.clientId)
    · cases hl : shouldLaunch (alook w.redis.crawlers o.clientId)
        (effLimit (alook w.redis.userConfig o.clientId)) with
      | true =>
        rw [archive_eq_launch_below w o now sid hx hs hl]
        apply inv_launchState cfg w o now hcfg hI
        rw [hcfg] at hl
        exact shouldLaunch_true_of_getD _ _ (effLimit_pos _) hl
      | false =>
        rw [archive_eq_reuse w o now sid hx hs hl]
        exact ⟨hcfg, hI⟩

theorem inv_archiveFold (cfg : List (String × Nat)) (calls : List (Options × String)) :
    Inv cfg (archiveFold cfg calls) := by
  suffices h : ∀ (l : List (Options × String)) (w : Worker), Inv cfg w →
      Inv cfg (l.foldl (fun w p => (archive w p.1 p.2).1) w) by
    exact h calls (initWorker cfg) (inv_initWorker cfg)
  intro l
  induction l with
  | nil => intro w hw; exact hw
  | cons p t ih =>
    intro w hw
    exact ih _ (inv_archive cfg w p.1 p.2 hw)

theorem zscoreNat_le_zincrby (z : List (String × Nat)) (cl c : String) :
    zscoreNat z c ≤ zscoreNat (zincrby z cl) c := by
  by_cases hc : c = cl
  · rw [hc, zscoreNat_zincrby_self]
    exact Nat.le_succ _
  · rw [zscoreNat_zincrby_ne _ _ _ hc]

/-- Claim C1: for every call to `archive(request)`, if the key
`running-<listingUUID>` is present in the shared store the call writes the pair
`<listingUUID> <listingURL>` as the tenant's queue entry and performs no lock
acquisition and no session dispatch; if the key is absent, the call sets
`running-<listingUUID>` with a 30-second TTL and then dispatches.  (Lock values
written by this program are non-empty timestamp strings, so presence of the key
coincides with truthiness of the `GET` result.) -/
theorem c1_archive_admission (w : Worker) (o : Options) (now : String) :
    (jsTruthyStr (redisGet w.redis (lockKey o)) = true →
      alook (archive w o now).1.redis.queued o.clientId = some (queueEntry o) ∧
      (archive w o now).1.redis.kv = w.redis.kv ∧
      (archive w o now).2 = none ∧
      (archive w o now).1.sessions = w.sessions) ∧
    (redisGet w.redis (lockKey o) = none →
      alook (archive w o now).1.redis.kv (lockKey o) = some (now, some 30) ∧
      ((archive w o now).2).isSome = true) := by
  constructor
  · intro hx
    rw [archive_eq_busy w o now hx]
    exact ⟨alook_aset_self _ _ _, rfl, rfl, rfl⟩
  · intro hget
    have hx : jsTruthyStr (redisGet w.redis (lockKey o)) = false := by
      rw [hget]
      rfl
    rcases hs : alook w.sessions o.clientId with _ | sid
    · rw [archive_eq_launch_nosession w o now hx hs]
      exact ⟨alook_aset_self _ _ _, rfl⟩
    · cases hl : shouldLaunch (alook w.redis.crawlers o.clientId)
        (effLimit (alook w.redis.userConfig o.clientId)) with
      | true =>
        rw [archive_eq_launch_below w o now sid hx hs hl]
        exact ⟨alook_aset_self _ _ _, rfl⟩
      | false =>
        rw [archive_eq_reuse w o now sid hx hs hl]
        exact ⟨alook_aset_self _ _ _, rfl⟩

/-- Witness for C1: with the lock for `u1` held, the request is queued and
nothing else happens; against an empty store, the lock is set with a
30-second expiry and a dispatch is fired. -/
theorem c1_archive_admission_witness :
    (alook (archive wBusy oA "ts").1.redis.queued oA.clientId = some (queueEntry oA) ∧
      (archive wBusy oA "ts").1.redis.kv = wBusy.redis.kv ∧
      (archive wBusy oA "ts").2 = none ∧
      (archive wBusy oA "ts").1.sessions = wBusy.sessions) ∧
    (alook (archive w0 oA "ts").1.redis.kv (lockKey oA) = some ("ts", some 30) ∧
      ((archive w0 oA "ts").2).isSome = true) :=
  ⟨(c1_archive_admission wBusy oA "ts").1 (by decide),
   (c1_archive_admission w0 oA "ts").2 (by decide)⟩

/-- Claim C2: starting from a fresh store, over every sequence of `archive`
calls the tenant's score in the `crawlers` sorted set never exceeds the
tenant's effective `crawlerLimit` (default 1); a crawler is created (the
in-process counter advances) exactly when no session exists yet for the tenant
or the recorded count is below the limit, and otherwise the stored session is
reused for the dispatch. -/
theorem c2_worker_limit :
    (∀ (cfg : List (String × Nat)) (calls : List (Options × String)) (c : String),
      zscoreNat (archiveFold cfg calls).redis.crawlers c ≤ effLimit (alook cfg c)) ∧
    (∀ (w : Worker) (o : Options) (now : String),
      redisGet w.redis (lockKey o) = none →
      ((archive w o now).1.nextSession = w.nextSession + 1 ↔
        (alook w.sessions o.clientId = none ∨
          zscoreNat w.redis.crawlers o.clientId <
            effLimit (alook w.redis.userConfig o.clientId)))) ∧
    (∀ (w : Worker) (o : Options) (now : String) (sid : Nat),
      redisGet w.redis (lockKey o) = none →
      alook w.sessions o.clientId = some sid →
      ¬ zscoreNat w.redis.crawlers o.clientId <
          effLimit (alook w.redis.userConfig o.clientId) →
      (archive w o now).1.sessions = w.sessions ∧
      ((archive w o now).2).map (fun d => d.sessionId) = some sid) := by
  refine ⟨?_, ?_, ?_⟩
  · intro cfg calls c
    exact ((inv_archiveFold cfg calls).2 c).1
  · intro w o now hget
    have hx : jsTruthyStr (redisGet w.redis (lockKey o)) = false := by
      rw [hget]
      rfl
    rcases hs : alook w.sessions o.clientId with _ | sid
    · rw [archive_eq_launch_nosession w o now hx hs]
      exact ⟨fun _ => Or.inl rfl, fun _ => rfl⟩
    · cases hl : shouldLaunch (alook w.redis.crawlers o.clientId)
        (effLimit (alook w.redis.userConfig o.clientId)) with
      | true =>
        rw [archive_eq_launch_below w o now sid hx hs hl]
        exact ⟨fun _ => Or.inr ((shouldLaunch_iff_lt _ _ (effLimit_pos _)).mp hl),
          fun _ => rfl⟩
      | false =>
        rw [archive_eq_reuse w o now sid hx hs hl]
        constructor
        · intro hone
          have h2 : w.nextSession = w.nextSession + 1 := hone
          omega
        · intro hor
          rcases hor with hnone | hlt
          · exact Option.noConfusion hnone
          · have := (shouldLaunch_iff_lt _ _ (effLimit_pos _)).mpr hlt
            rw [hl] at this
            cases this
  · intro w o now sid hget hs hnlt
    have hx : jsTruthyStr (redisGet w.redis (lockKey o)) = false := by
      rw [hget]
      rfl
    have hl : shouldLaunch (alook w.redis.crawlers o.clientId)
        (effLimit (alook w.redis.userConfig o.clientId)) = false := by
      cases hb : shouldLaunch (alook w.redis.crawlers o.clientId)
        (effLimit (alook w.redis.userConfig o.clientId)) with
      | false => rfl
      | true => exact absurd ((shouldLaunch_iff_lt _ _ (effLimit_pos _)).mp hb) hnlt
    rw [archive_eq_reuse w o now sid hx hs hl]
    exact ⟨rfl, rfl⟩

/-- Witness for C2: one call against a fresh store stays within the default
limit; a fresh tenant launches; a tenant at its limit with a stored session
reuses session 0. -/
theorem c2_worker_limit_witness :
    zscoreNat (archiveFold [] [(oA, "ts")]).redis.crawlers "t1" ≤ effLimit (alook [] "t1") ∧
    ((archive w0 oA "ts").1.nextSession = w0.nextSession + 1 ↔
      (alook w0.sessions oA.clientId = none ∨
        zscoreNat w0.redis.crawlers oA.clientId <
          effLimit (alook w0.redis.userConfig oA.clientId))) ∧
    ((archive wAtLimit oA "ts").1.sessions = wAtLimit.sessions ∧
      ((archive wAtLimit oA "ts").2).map (fun d => d.sessionId) = some 0) :=
  ⟨c2_worker_limit.1 [] [(oA, "ts")] "t1",
   c2_worker_limit.2.1 w0 oA "ts" (by decide),
   c2_worker_limit.2.2 wAtLimit oA "ts" 0 (by decide) (by decide) (by decide)⟩

/-- Claim C3 (code-bug evidence): the claimed bound "ledger size is at most 10
after each insert" fails — because `multi.SCARD` returns the pipeline object,
`addSetItem` never evicts, so eleven inserts of distinct members into an empty
`recent_listings` set leave eleven members. -/
theorem c3_ledger_overflow :
    (((List.range 11).map (fun i => "m" ++ toString i)).foldl
      (fun s it => addSetItem s it 10) []).length = 11 := by
  decide

/-- Counterexample to Claim C4 as stated: the record written into the
`archives` hash under the event's `listingPid` is the bare `CapturedPayload`
(`JSON.stringify(payload)`, no `gitUrl` key, modelled as `gitUrl = none`), not
the payload extended with the `gitUrl` locator. -/
theorem c4_stored_record_counterexample :
    alook ((crawledHandler emptyRedis p4 "git-x" "rl").1).archives "pid1" =
      some { payload := p4, gitUrl := none } ∧
    alook ((crawledHandler emptyRedis p4 "git-x" "rl").1).archives "pid1" ≠
      some { payload := p4, gitUrl := some "git-x" } := by
  decide

/-- Claim C4 (amended): for every `captured` event consumed by the pipeline,
exactly one record — the `CapturedPayload` itself, without the `gitUrl`
locator — is written into the `archives` hash keyed by the event's
`listingPid` (all other keys unchanged), at most one `RecentListing` is added
to the ledger, and afterwards an `archived` event carrying the payload
extended with `gitUrl` is emitted. -/
theorem c4_pipeline_amended (r : Redis) (p : CapturedPayload) (g rl : String) :
    alook ((crawledHandler r p g rl).1).archives p.listingPid =
      some { payload := p, gitUrl := none } ∧
    (∀ pid, pid ≠ p.listingPid →
      alook ((crawledHandler r p g rl).1).archives pid = alook r.archives pid) ∧
    ((crawledHandler r p g rl).1).recent.length ≤ r.recent.length + 1 ∧
    (crawledHandler r p g rl).2 = { payload := p, gitUrl := g } := by
  refine ⟨alook_aset_self _ _ _, ?_, ?_, rfl⟩
  · intro pid hpid
    exact alook_aset_ne _ _ _ _ hpid
  · show (addSetItem r.recent rl 10).length ≤ r.recent.length + 1
    rw [addSetItem_eq_sadd]
    exact sadd_length_le _ _

/-- Witness for the amended C4 at a concrete event. -/
theorem c4_pipeline_amended_witness :
    alook ((crawledHandler emptyRedis p4 "git-x" "rl").1).archives "other" =
      alook emptyRedis.archives "other" :=
  (c4_pipeline_amended emptyRedis p4 "git-x" "rl").2.1 "other" (by decide)

/-- Claim C5: whether the dispatched batch's run completes or its body throws,
the `finally` block deletes the lock `running-<uuid>` of every entry of the
batch, and the resulting store does not depend on which of the two paths was
taken. -/
theorem c5_run_releases_locks :
    (∀ (r : Redis) (urlMap : List String) (o : Options) (b : Bool) (m : String),
      m ∈ urlMap →
      alook ((run r urlMap o b).1).kv ("running-" ++ uuidOf m) = none) ∧
    (∀ (r : Redis) (urlMap : List String) (o : Options),
      run r urlMap o true = run r urlMap o false) := by
  constructor
  · intro r urlMap o b m hm
    have hmm : uuidOf m ∈ urlMap.map uuidOf := List.mem_map_of_mem _ hm
    have hrel := alook_releaseLocks_mem (urlMap.map uuidOf) r.kv (uuidOf m) hmm
    cases b
    · exact hrel
    · exact hrel
  · intro r urlMap o
    rfl

/-- Witness for C5: a two-target batch removes both `running-u1` and
`running-u2` even when the body throws. -/
theorem c5_run_releases_locks_witness :
    alook ((run r5 ["u1 a", "u2 b"] o9 true).1).kv ("running-" ++ uuidOf "u1 a") = none ∧
    alook ((run r5 ["u1 a", "u2 b"] o9 false).1).kv ("running-" ++ uuidOf "u2 b") = none :=
  ⟨c5_run_releases_locks.1 r5 ["u1 a", "u2 b"] o9 true "u1 a" (by decide),
   c5_run_releases_locks.1 r5 ["u1 a", "u2 b"] o9 false "u2 b" (by decide)⟩

/-- Claim C6 (code-bug evidence): while tenant `t1` and tenant `t2` each have a
pending entry, an un-locked `archive` call by `t1` empties the whole `queued`
hash — `t2`'s entry (which was `"u2 b"`) is gone afterwards — and `t2`'s value
is even read into `t1`'s dispatched batch, contradicting the claim that the
drain touches exactly the requesting tenant's entries. -/
theorem c6_drain_clears_all_tenants :
    alook w6.redis.queued "t2" = some "u2 b" ∧
    (archive w6 o6 "ts").1.redis.queued = [] ∧
    ((archive w6 o6 "ts").2).map (fun d => d.urlMap) = some ["u1 a", "u2 b", "u9 c"] := by
  decide

/-- Counterexample to Claim C7 as stated: tenant `t1` has no pending entries, so
a batch made of the tenant's drained entries merged with the new entry and
deduplicated by URL would carry the URL `urlX` once; the actual batch also
carries tenant `t2`'s entry, and its URL column repeats `urlX`. -/
theorem c7_batch_counterexample :
    alook w7.redis.queued o7.clientId = none ∧
    ((archive w7 o7 "ts").2).map (fun d => d.urlMap) = some ["u2 urlX", "u1 urlX"] ∧
    ¬ (["u2 urlX", "u1 urlX"].map urlOf).Nodup := by
  decide

/-- Claim C7 (amended): when `archive` finds the lock absent, the dispatched
batch consists of the drained pending entries of the entire `queued` hash (all
tenants) merged with the just-admitted entry, deduplicated by exact
`"<uuid> <url>"` string equality (not by URL) with empty strings dropped, and
the newly admitted entry is always present. -/
theorem c7_batch_amended (w : Worker) (o : Options) (now : String)
    (hget : redisGet w.redis (lockKey o) = none) :
    ∃ d, (archive w o now).2 = some d ∧
      queueEntry o ∈ d.urlMap ∧
      d.urlMap.Nodup ∧
      (∀ u, u ∈ d.urlMap ↔
        ((u ∈ w.redis.queued.map (fun p => p.2) ∨ u = queueEntry o) ∧ u ≠ "")) := by
  have hx : jsTruthyStr (redisGet w.redis (lockKey o)) = false := by
    rw [hget]
    rfl
  have hmem : ∀ u, u ∈ archiveBatch w o ↔
      ((u ∈ w.redis.queued.map (fun p => p.2) ∨ u = queueEntry o) ∧ u ≠ "") := by
    intro u
    simp only [archiveBatch, List.mem_filter, mem_jsDedup, List.mem_append,
      List.mem_singleton]
    constructor
    · rintro ⟨hin, hne⟩
      refine ⟨hin, ?_⟩
      intro he
      subst he
      exact absurd hne (by decide)
    · rintro ⟨hin, hne⟩
      refine ⟨hin, ?_⟩
      cases hb : u.isEmpty with
      | false => rfl
      | true => exact absurd ((String.isEmpty_iff u).mp hb) hne
  have hnodup : (archiveBatch w o).Nodup := (nodup_jsDedup _).filter _
  have hqe : queueEntry o ∈ archiveBatch w o :=
    (hmem (queueEntry o)).mpr ⟨Or.inr rfl, queueEntry_ne_empty o⟩
  rcases hs : alook w.sessions o.clientId with _ | sid
  · exact ⟨_, by rw [archive_eq_launch_nosession w o now hx hs], hqe, hnodup, hmem⟩
  · cases hl : shouldLaunch (alook w.redis.crawlers o.clientId)
      (effLimit (alook w.redis.userConfig o.clientId)) with
    | true =>
      exact ⟨_, by rw [archive_eq_launch_below w o now sid hx hs hl], hqe, hnodup, hmem⟩
    | false =>
      exact ⟨_, by rw [archive_eq_reuse w o now sid hx hs hl], hqe, hnodup, hmem⟩

/-- Witness for the amended C7 at the concrete cross-tenant state `w7`. -/
theorem c7_batch_amended_witness :
    ∃ d, (archive w7 o7 "ts").2 = some d ∧
      queueEntry o7 ∈ d.urlMap ∧
      d.urlMap.Nodup ∧
      (∀ u, u ∈ d.urlMap ↔
        ((u ∈ w7.redis.queued.map (fun p => p.2) ∨ u = queueEntry o7) ∧ u ≠ "")) :=
  c7_batch_amended w7 o7 "ts" (by decide)

/-- Claim C8 (code-bug evidence): in the specification's reset scenario (one
lock `running-abc`, one queued entry for tenant `t1`, one recorded crawler),
the `SIGUSR2` handler empties the `crawlers` sorted set and deletes the lock,
but the queued entry survives, because the handler scans for keys matching
`queued-*` while the queue lives in the single hash key `queued`. -/
theorem c8_reset_misses_queue :
    (sigusr2 r8).crawlers = [] ∧
    (sigusr2 r8).kv = [] ∧
    (sigusr2 r8).queued = [("t1", "u1 url1")] := by
  decide

/-- Counterexample to Claim C9 as stated: in the batch `["u1 a", "u2 b"]`
dispatched by the request with uuid `u2`, the entry `"u1 a"` originated from a
request with uuid `u1`, yet the request object built for its URL `a` carries
the triggering call's options (uuid `u2`). -/
theorem c9_tagging_counterexample :
    (run emptyRedis ["u1 a", "u2 b"] o9 false).2 =
      [{ url := "a", options := o9 }, { url := "b", options := o9 }] ∧
    uuidOf "u1 a" = "u1" ∧
    o9.listingUUID ≠ "u1" := by
  decide

/-- Claim C9 (amended): every request of a dispatched batch is tagged with the
single options object of the call that triggered the dispatch — not with its
originating request's options — while the URLs are the second fields of the
batch entries in order. -/
theorem c9_tagging_amended (r : Redis) (urlMap : List String) (o : Options) (b : Bool) :
    ((run r urlMap o b).2).map (fun q => q.options) = urlMap.map (fun _ => o) ∧
    ((run r urlMap o b).2).map (fun q => q.url) = urlMap.map urlOf := by
  constructor
  · show ((urlMap.map urlOf).map
      (fun url => ({ url := url, options := o } : Request))).map (fun q => q.options) = _
    rw [List.map_map, List.map_map]
    rfl
  · show ((urlMap.map urlOf).map
      (fun url => ({ url := url, options := o } : Request))).map (fun q => q.url) = _
    rw [List.map_map]
    simp [Function.comp]

/-- Claim C10: a tenant's score in the `crawlers` sorted set is never changed
by `run` (completion or failure), is never decreased by `archive`, goes up by
exactly one when a crawler is launched on the un-locked path, and is removed
only by the `SIGUSR2` reset, which empties the sorted set. -/
theorem c10_score_never_freed :
    (∀ (r : Redis) (urlMap : List String) (o : Options) (b : Bool),
      ((run r urlMap o b).1).crawlers = r.crawlers) ∧
    (∀ (w : Worker) (o : Options) (now : String) (c : String),
      zscoreNat w.redis.crawlers c ≤ zscoreNat (archive w o now).1.redis.crawlers c) ∧
    (∀ (w : Worker) (o : Options) (now : String),
      redisGet w.redis (lockKey o) = none →
      (archive w o now).1.nextSession = w.nextSession + 1 →
      alook (archive w o now).1.redis.crawlers o.clientId =
        some (zscoreNat w.redis.crawlers o.clientId + 1)) ∧
    (∀ r : Redis, (sigusr2 r).crawlers = []) := by
  refine ⟨?_, ?_, ?_, sigusr2_crawlers⟩
  · intro r urlMap o b
    cases b <;> rfl
  · intro w o now c
    cases hx : jsTruthyStr (redisGet w.redis (lockKey o)) with
    | true =>
      rw [archive_eq_busy w o now hx]
      exact le_refl _
    | false =>
      rcases hs : alook w.sessions o.clientId with _ | sid
      · rw [archive_eq_launch_nosession w o now hx hs]
        exact zscoreNat_le_zincrby _ _ _
      · cases hl : shouldLaunch (alook w.redis.crawlers o.clientId)
          (effLimit (alook w.redis.userConfig o.clientId)) with
        | true =>
          rw [archive_eq_launch_below w o now sid hx hs hl]
          exact zscoreNat_le_zincrby _ _ _
        | false =>
          rw [archive_eq_reuse w o now sid hx hs hl]
          exact le_refl _
  · intro w o now hget hone
    have hx : jsTruthyStr (redisGet w.redis (lockKey o)) = false := by
      rw [hget]
      rfl
    rcases hs : alook w.sessions o.clientId with _ | sid
    · rw [archive_eq_launch_nosession w o now hx hs]
      exact alook_aset_self _ _ _
    · cases hl : shouldLaunch (alook w.redis.crawlers o.clientId)
        (effLimit (alook w.redis.userConfig o.clientId)) with
      | true =>
        rw [archive_eq_launch_below w o now sid hx hs hl]
        exact alook_aset_self _ _ _
      | false =>
        rw [archive_eq_reuse w o now sid hx hs hl] at hone
        have h2 : w.nextSession = w.nextSession + 1 := hone
        omega

/-- Witness for C10: a launch against a fresh store raises tenant `t1`'s score
from zero to one. -/
theorem c10_score_never_freed_witness :
    alook (archive w0 oA "ts").1.redis.crawlers oA.clientId =
      some (zscoreNat w0.redis.crawlers oA.clientId + 1) :=
  c10_score_never_freed.2.2.1 w0 oA "ts" (by decide) (by decide)

end CrawlerWorker
